import Mathlib

/-
Verification of the MathOps example library (src/examples/cmake-library).

The library consists of three C functions in src/math_ops.c:

  int add(int a, int b)            { return a + b; }
  int multiply(int a, int b)       { return a * b; }
  double divide_safe(double a, double b)
      { if (b == 0.0) return 0.0; return a / b; }

and a smoke-test driver test/test_math.c whose main prints one header
line and one result line per call and returns 0.

C `int` is modelled as a mathematical integer reduced into the two's
complement range of a 32-bit word (the common platform convention the
spec refers to).  C `double` is modelled by an executable shallow
embedding of IEEE-754 binary64: values are NaN, signed infinity, or a
signed finite value m * 2^e; `==` is IEEE equality (treating the two
zeros as equal and NaN as unequal to everything) and `/` is division
with round-to-nearest, ties-to-even, overflow to infinity, and the
IEEE special-value rules.
-/

namespace MathOps

/-- A binary64 value: NaN, a signed infinity, or a signed finite value
whose magnitude is `m * 2 ^ e`. -/
inductive FP where
  | nan : FP
  | inf : Bool → FP
  | finite : Bool → Nat → Int → FP
deriving DecidableEq

/-- The double literal `0.0` (positive zero). -/
def fpZero : FP := .finite false 0 0

/-- The double value `-0.0` (negative zero). -/
def fpNegZero : FP := .finite true 0 0

/-- The double literal `1.0`, with its canonical 53-bit significand. -/
def fpOne : FP := .finite false (2 ^ 52) (-52)

/-- The double literal `2.0`. -/
def fpTwo : FP := .finite false (2 ^ 52) (-51)

/-- The double literal `3.0`. -/
def fpThree : FP := .finite false (3 * 2 ^ 51) (-51)

/-- The double literal `5.0`. -/
def fpFive : FP := .finite false (5 * 2 ^ 50) (-50)

/-- The double literal `10.0`. -/
def fpTen : FP := .finite false (5 * 2 ^ 50) (-49)

/-- Whether the value is a NaN. -/
def isNan : FP → Bool
  | .nan => true
  | _ => false

/-- Whether the value is an infinity. -/
def isInf : FP → Bool
  | .inf _ => true
  | _ => false

/-- Equality of the magnitudes `m1 * 2 ^ e1` and `m2 * 2 ^ e2`,
decided after rescaling both to the smaller exponent. -/
def finEqVal (m1 : Nat) (e1 : Int) (m2 : Nat) (e2 : Int) : Bool :=
  let e := min e1 e2
  m1 * 2 ^ (e1 - e).toNat == m2 * 2 ^ (e2 - e).toNat

/-- The C `==` operator on doubles: IEEE equality.  NaN compares unequal
to everything (itself included); `-0.0 == 0.0` holds; finite values
compare by numeric value. -/
def fpBeq : FP → FP → Bool
  | .nan, _ => false
  | _, .nan => false
  | .inf s, .inf t => s == t
  | .inf _, .finite _ _ _ => false
  | .finite _ _ _, .inf _ => false
  | .finite s1 m1 e1, .finite s2 m2 e2 =>
      if m1 == 0 && m2 == 0 then true
      else s1 == s2 && finEqVal m1 e1 m2 e2

/-- Round the nonnegative rational `N / D` (with `D > 0`) to the nearest
integer, ties to even. -/
def roundNEDiv (N D : Nat) : Nat :=
  let t := N / D
  let r := N % D
  if 2 * r < D then t
  else if D < 2 * r then t + 1
  else if t % 2 == 0 then t else t + 1

/-- Number of binary digits of the second argument, with the first
argument as fuel; structural in the fuel so it reduces in the kernel. -/
def bitLenAux : Nat → Nat → Nat
  | 0, _ => 0
  | fuel + 1, n => if n = 0 then 0 else bitLenAux fuel (n / 2) + 1

/-- Number of binary digits of `n`, so `2 ^ (bitLen n - 1) ≤ n < 2 ^ bitLen n`
for positive `n`. -/
def bitLen (n : Nat) : Nat := bitLenAux n n

/-- Floor of the base-2 logarithm of the positive rational `n / d`
(both arguments positive). -/
def floorLog2Rat (n d : Nat) : Int :=
  let a := bitLen n - 1
  let b := bitLen d - 1
  if d * 2 ^ a ≤ n * 2 ^ b then (a : Int) - b else (a : Int) - b - 1

/-- Round the positive rational `(n / d) * 2 ^ eoff` (with `n, d > 0`)
to a binary64 value of sign `sgn`: round to nearest, ties to even, with
gradual underflow below `2 ^ (-1022)` and overflow to infinity. -/
def roundFiniteDiv (sgn : Bool) (n d : Nat) (eoff : Int) : FP :=
  let E := floorLog2Rat n d + eoff
  let qe := max (E - 52) (-1074)
  let s := eoff - qe
  let N := if 0 ≤ s then n * 2 ^ s.toNat else n
  let D := if 0 ≤ s then d else d * 2 ^ (-s).toNat
  let m0 := roundNEDiv N D
  let m := if m0 == 2 ^ 53 then 2 ^ 52 else m0
  let qe2 := if m0 == 2 ^ 53 then qe + 1 else qe
  if 2047 ≤ qe2 + 1075 then .inf sgn else .finite sgn m qe2

/-- The C `/` operator on doubles: IEEE-754 binary64 division.
Any NaN operand yields NaN; `inf / inf` and `0 / 0` yield NaN; a finite
nonzero value divided by zero yields a signed infinity; division by an
infinity yields a signed zero; otherwise the exact quotient is rounded
to nearest, ties to even. -/
def fdiv : FP → FP → FP
  | .nan, _ => .nan
  | _, .nan => .nan
  | .inf _, .inf _ => .nan
  | .inf s, .finite t _ _ => .inf (s != t)
  | .finite s _ _, .inf t => .finite (s != t) 0 0
  | .finite s1 m1 e1, .finite s2 m2 e2 =>
      if m2 == 0 then
        if m1 == 0 then .nan else .inf (s1 != s2)
      else if m1 == 0 then .finite (s1 != s2) 0 0
      else roundFiniteDiv (s1 != s2) m1 m2 (e1 - e2)

/-- `double divide_safe(double a, double b)` from src/math_ops.c:
if `b == 0.0` return `0.0`, otherwise return `a / b`. -/
def divide_safe (a b : FP) : FP :=
  if fpBeq b fpZero then fpZero else fdiv a b

/-- Reduction of a mathematical integer into the two's complement range
of a 32-bit `int`, `[-2 ^ 31, 2 ^ 31)`. -/
def wrap32 (x : Int) : Int := (x + 2 ^ 31) % 2 ^ 32 - 2 ^ 31

/-- `int add(int a, int b)` from src/math_ops.c: `a + b` in 32-bit
`int` arithmetic. -/
def add (a b : Int) : Int := wrap32 (a + b)

/-- `int multiply(int a, int b)` from src/math_ops.c: `a * b` in 32-bit
`int` arithmetic. -/
def multiply (a b : Int) : Int := wrap32 (a * b)

/-- Membership in the value range of a 32-bit `int`. -/
def inRange32 (x : Int) : Prop := -2 ^ 31 ≤ x ∧ x < 2 ^ 31

instance (x : Int) : Decidable (inRange32 x) := by
  unfold inRange32; infer_instance

/-- Two-digit fixed-point decimal rendering of a number of hundredths,
as produced by printf once the sign is stripped. -/
def padHundredths (h : Nat) : String :=
  toString (h / 100) ++ "." ++ (if h % 100 < 10 then "0" else "") ++ toString (h % 100)

/-- printf `%.2f` rendering of a double: the value rounded to a whole
number of hundredths (ties to even, as glibc rounds exact binary
values), printed with two digits after the decimal point. -/
def formatF2 : FP → String
  | .nan => "nan"
  | .inf s => if s then "-inf" else "inf"
  | .finite s m e =>
      let h := if 0 ≤ e then m * 100 * 2 ^ e.toNat
               else roundNEDiv (m * 100) (2 ^ (-e).toNat)
      (if s then "-" else "") ++ padHundredths h

/-- The shape of `main` in test/test_math.c, parametric in the three
library functions it calls: the lines written to standard output (one
per printf call, each format string ends in a newline) paired with the
exit code. -/
def mainDriver (addFn mulFn : Int → Int → Int) (divFn : FP → FP → FP) :
    List String × Int :=
  let sum := addFn 5 3
  let product := mulFn 4 7
  let result := divFn fpTen fpTwo
  let safe := divFn fpFive fpZero
  (["Testing MathLib (built with Poltergeist)",
    "add(5, 3) = " ++ toString sum,
    "multiply(4, 7) = " ++ toString product,
    "divide_safe(10.0, 2.0) = " ++ formatF2 result,
    "divide_safe(5.0, 0.0) = " ++ formatF2 safe ++ " (safe!)"], 0)

/-- `int main()` from test/test_math.c, instantiated with the library
functions of src/math_ops.c. -/
def main : List String × Int := mainDriver add multiply divide_safe

end MathOps

namespace MathOps

/-- C1: for every double `a` and every double `b` that is not equal to
`0.0` under IEEE comparison, `divide_safe a b` returns the
floating-point quotient `a / b`; in particular
`divide_safe(10.0, 2.0) == 5.0`. -/
theorem divide_safe_nonzero (a b : FP) (h : fpBeq b fpZero = false) :
    divide_safe a b = fdiv a b ∧ fpBeq (divide_safe fpTen fpTwo) fpFive = true := by
  refine ⟨?_, by decide⟩
  simp [divide_safe, h]

theorem divide_safe_nonzero_witness :
    fpBeq fpTwo fpZero = false ∧ divide_safe fpTen fpTwo = fdiv fpTen fpTwo :=
  ⟨by decide, (divide_safe_nonzero fpTen fpTwo (by decide)).1⟩

/-- C2: for every double `a`, `divide_safe a 0.0` returns exactly the
fallback value `0.0` — never a NaN or an infinity — and in particular
`divide_safe(5.0, 0.0) == 0.0`. -/
theorem divide_safe_zero (a : FP) :
    divide_safe a fpZero = fpZero ∧
      isNan (divide_safe a fpZero) = false ∧
      isInf (divide_safe a fpZero) = false ∧
      fpBeq (divide_safe fpFive fpZero) fpZero = true :=
  ⟨rfl, rfl, rfl, by decide⟩

/-- C3: `add a b` is `a + b` reduced into the 32-bit `int` range (it
agrees with the mathematical sum modulo `2 ^ 32`, lies in the range,
and equals the mathematical sum whenever that sum is representable);
in particular `add 5 3 = 8`. -/
theorem add_correct (a b : Int) :
    add a b % 2 ^ 32 = (a + b) % 2 ^ 32 ∧
      inRange32 (add a b) ∧
      (inRange32 (a + b) → add a b = a + b) ∧
      add 5 3 = 8 := by
  unfold add wrap32 inRange32
  refine ⟨by omega, by omega, fun hr => by omega, by decide⟩

theorem add_correct_witness : inRange32 ((5 : Int) + 3) ∧ add 5 3 = 5 + 3 :=
  ⟨by decide, (add_correct 5 3).2.2.1 (by decide)⟩

/-- C4: `multiply a b` is `a * b` reduced into the 32-bit `int` range
(it agrees with the mathematical product modulo `2 ^ 32`, lies in the
range, and equals the mathematical product whenever that product is
representable); in particular `multiply 4 7 = 28`. -/
theorem multiply_correct (a b : Int) :
    multiply a b % 2 ^ 32 = a * b % 2 ^ 32 ∧
      inRange32 (multiply a b) ∧
      (inRange32 (a * b) → multiply a b = a * b) ∧
      multiply 4 7 = 28 := by
  unfold multiply wrap32 inRange32
  refine ⟨?_, ?_, fun hr => ?_, by decide⟩
  · generalize a * b = x
    omega
  · generalize a * b = x
    omega
  · unfold inRange32 at hr
    generalize hx : a * b = x at hr ⊢
    omega

theorem multiply_correct_witness : inRange32 ((4 : Int) * 7) ∧ multiply 4 7 = 4 * 7 :=
  ⟨by decide, (multiply_correct 4 7).2.2.1 (by decide)⟩

/-- C5: `add` is commutative: `add a b = add b a` for all integers. -/
theorem add_comm_all (a b : Int) : add a b = add b a := by
  unfold add
  rw [Int.add_comm]

/-- C6: `multiply` is commutative: `multiply a b = multiply b a` for
all integers. -/
theorem multiply_comm_all (a b : Int) : multiply a b = multiply b a := by
  unfold multiply
  rw [Int.mul_comm]

/-- C7: the test driver returns exit code 0 regardless of what the
three functions it calls compute, and the actual `main` of
test/test_math.c emits exactly the header line followed by one result
line for each of `add(5,3)`, `multiply(4,7)`, `divide_safe(10.0,2.0)`,
`divide_safe(5.0,0.0)` in that order, with exit code 0. -/
theorem main_spec :
    (∀ (f g : Int → Int → Int) (h : FP → FP → FP), (mainDriver f g h).2 = 0) ∧
      main = mainDriver add multiply divide_safe ∧
      main.1 = ["Testing MathLib (built with Poltergeist)",
        "add(5, 3) = 8",
        "multiply(4, 7) = 28",
        "divide_safe(10.0, 2.0) = 5.00",
        "divide_safe(5.0, 0.0) = 0.00 (safe!)"] ∧
      main.2 = 0 :=
  ⟨fun _ _ _ => rfl, rfl, by decide, rfl⟩

/-- C8: each of `add`, `multiply` and `divide_safe` is deterministic
(as a 2-safety property: two invocations with equal arguments yield
equal results).  Side-effect freedom holds by construction of the
embedding: each function is a pure function of its arguments alone,
mirroring the C sources, which touch no global or static state. -/
theorem pure_deterministic (a1 b1 a2 b2 c1 d1 c2 d2 : Int) (x1 y1 x2 y2 : FP)
    (ha : a1 = a2) (hb : b1 = b2) (hc : c1 = c2) (hd : d1 = d2)
    (hx : x1 = x2) (hy : y1 = y2) :
    add a1 b1 = add a2 b2 ∧ multiply c1 d1 = multiply c2 d2 ∧
      divide_safe x1 y1 = divide_safe x2 y2 := by
  subst ha hb hc hd hx hy
  exact ⟨rfl, rfl, rfl⟩

theorem pure_deterministic_witness :
    add 5 3 = add 5 3 ∧ multiply 4 7 = multiply 4 7 ∧
      divide_safe fpTen fpTwo = divide_safe fpTen fpTwo :=
  pure_deterministic 5 3 5 3 4 7 4 7 fpTen fpTwo fpTen fpTwo
    rfl rfl rfl rfl rfl rfl

/-- C9: for every double `a`, `divide_safe a (-0.0)` returns the
fallback `0.0`, because the guard `b == 0.0` is IEEE equality and
`-0.0 == 0.0` holds; the division it thereby skips would have produced
an infinity (e.g. `1.0 / -0.0` is `-inf`). -/
theorem divide_safe_negzero (a : FP) :
    divide_safe a fpNegZero = fpZero ∧
      fpBeq fpNegZero fpZero = true ∧
      isInf (fdiv fpOne fpNegZero) = true :=
  ⟨rfl, rfl, by decide⟩

/-- C10: there exist doubles `a`, `b` with `b` not equal to `0.0`
(under IEEE comparison) for which `divide_safe a b` is NaN or infinite:
the zero-denominator guard does not prevent all non-finite outputs.
Witness: `b = NaN`, for which the guard is false and `a / NaN = NaN`. -/
theorem divide_safe_nonfinite_possible :
    ∃ a b : FP, fpBeq b fpZero = false ∧
      (isNan (divide_safe a b) || isInf (divide_safe a b)) = true :=
  ⟨fpOne, FP.nan, by decide, by decide⟩

end MathOps
